import Mathlib

/-!
Verification of the Sentinyl digital-risk-protection platform against its
natural-language specification.

The Python sources are shallowly embedded: database tables become lists of
records, wall-clock time is an explicit rational parameter (rationals keep
the sub-second distinctions that `int(timedelta.total_seconds())` truncation
in the source depends on), HTTP handlers become pure functions from a state
and a request to a result and a new state, and the Redis queue becomes a list.
Python `int()` truncation toward zero is modelled by `intTrunc`.
-/

deriving instance DecidableEq for Except

namespace Sentinyl

/-- Python `int()` on a rational: truncation toward zero. -/
def intTrunc (q : ℚ) : ℤ := if 0 ≤ q then ⌊q⌋ else ⌈q⌉

/-- Python `str.lower()`: lowercase each character. -/
def pyLower (s : String) : String := ⟨s.data.map Char.toLower⟩

/-- Python `str.strip()`: drop whitespace from both ends. -/
def pyStrip (s : String) : String :=
  ⟨((s.data.dropWhile Char.isWhitespace).reverse.dropWhile
      Char.isWhitespace).reverse⟩

/-- Python `c in s` for a single character. -/
def pyContains (s : String) (c : Char) : Bool := s.data.contains c

/-- Row of the `guard_events` table (src/backend/models.py, class GuardEvent).
Identifiers are `Nat` in place of UUIDs; timestamps are rationals (seconds). -/
structure GuardEvent where
  id : Nat
  agent_id : Nat
  anomaly_type : String
  severity : String
  admin_response : Option String
  admin_user : Option String
  responded_at : Option ℚ
  countdown_expires_at : ℚ
  blocked : Bool
deriving Repr, DecidableEq

/-- Response schema `GuardEventStatus` (src/backend/models.py). -/
structure GuardEventStatus where
  event_id : Nat
  anomaly_type : String
  severity : String
  admin_response : Option String
  countdown_remaining : ℤ
  should_block : Bool
deriving Repr, DecidableEq

/-- Error results of the HTTP handlers (FastAPI `HTTPException` status codes). -/
inductive ApiError where
  | badRequest : String → ApiError
  | notFound : String → ApiError
  | internal : String → ApiError
deriving Repr, DecidableEq

/-- The SQL filter of `get_guard_status` (src/backend/main.py:477):
`agent_id == agent AND countdown_expires_at > now`. -/
def guardSelected (agent : Nat) (now : ℚ) (e : GuardEvent) : Bool :=
  e.agent_id == agent && decide (e.countdown_expires_at > now)

/-- `countdown_remaining = max(0, int((countdown_expires_at - now).total_seconds()))`
(src/backend/main.py:482-486). -/
def countdownRemaining (now : ℚ) (e : GuardEvent) : ℤ :=
  max 0 (intTrunc (e.countdown_expires_at - now))

/-- The `should_block` decision of the poll loop (src/backend/main.py:489-496). -/
def pollShouldBlock (now : ℚ) (e : GuardEvent) : Bool :=
  if e.admin_response == some "block" then true
  else if e.admin_response == none && countdownRemaining now e == 0 then true
  else false

/-- The branch of the poll loop that mutates the row: response absent and the
(truncated) remaining countdown is zero (src/backend/main.py:492-496). -/
def pollAutoArm (now : ℚ) (e : GuardEvent) : Bool :=
  e.admin_response == none && countdownRemaining now e == 0

/-- `GET /guard/status/{agent_id}` (src/backend/main.py:456-516, `get_guard_status`):
query events with `agent_id` matching and `countdown_expires_at > now`, build one
`GuardEventStatus` per selected event, and as a side effect set `blocked = true`
on every selected event whose response is absent and whose remaining countdown
truncates to zero.  Returns (statuses, updated table).  The `ORDER BY created_at
DESC` clause only permutes the response list and is not modelled. -/
def get_guard_status (db : List GuardEvent) (agent : Nat) (now : ℚ) :
    List GuardEventStatus × List GuardEvent :=
  let events := db.filter (guardSelected agent now)
  let statuses := events.map (fun e =>
    { event_id := e.id
      anomaly_type := e.anomaly_type
      severity := e.severity
      admin_response := e.admin_response
      countdown_remaining := countdownRemaining now e
      should_block := pollShouldBlock now e })
  let db' := db.map (fun e =>
    if guardSelected agent now e && pollAutoArm now e then
      { e with blocked := true }
    else e)
  (statuses, db')

/-- `POST /guard/response` (src/backend/main.py:391-453, `receive_admin_response`):
validate the response value, look the event up (404 when absent), then
unconditionally overwrite `admin_response`, `admin_user`, `responded_at`,
and set `blocked := true` when the response is `block`. -/
def receive_admin_response (db : List GuardEvent) (event_id : Nat)
    (resp : String) (admin_user : String) (now : ℚ) :
    Except ApiError (List GuardEvent) :=
  if ¬ (resp = "safe" ∨ resp = "block") then
    .error (.badRequest "Response must be safe or block")
  else
    match db.find? (fun e => e.id == event_id) with
    | none => .error (.notFound "Event not found")
    | some _ => .ok (db.map (fun e =>
        if e.id == event_id then
          { e with
            admin_response := some resp
            admin_user := some admin_user
            responded_at := some now
            blocked := if resp = "block" then true else e.blocked }
        else e))

/-- A concrete guard event: no operator verdict, countdown expires at t = 100. -/
def evNoVerdict : GuardEvent :=
  { id := 1, agent_id := 1, anomaly_type := "geo", severity := "critical"
    admin_response := none, admin_user := none, responded_at := none
    countdown_expires_at := 100, blocked := false }

/-- A concrete guard event: operator verdict `block`, countdown expires at t = 100. -/
def evBlockVerdict : GuardEvent :=
  { id := 2, agent_id := 1, anomaly_type := "process", severity := "critical"
    admin_response := some "block", admin_user := some "alice"
    responded_at := some 50, countdown_expires_at := 100, blocked := true }

/-- Row of the `domains` table (src/backend/models.py, class Domain). -/
structure Domain where
  id : Nat
  user_id : Nat
  domain : String
  priority : String
deriving Repr, DecidableEq

/-- Row of the `scan_jobs` table (src/backend/models.py, class ScanJob). -/
structure ScanJob where
  id : Nat
  domain_id : Nat
  job_type : String
  status : String
  started_at : Option ℚ
  completed_at : Option ℚ
  error_message : Option String
deriving Repr, DecidableEq

/-- Body of the 202 response of `POST /scan` (`ScanResponse`). -/
structure ScanResponse where
  job_id : Nat
  domain : String
  scan_type : String
  status : String
deriving Repr, DecidableEq

/-- The JSON payload pushed onto the Redis list (src/backend/main.py:181-188). -/
structure QueueMsg where
  queue : String
  job_id : Nat
  domain : String
  scan_type : String
  priority : String
deriving Repr, DecidableEq

/-- The persistent state touched by `POST /scan`: the two tables and the queue. -/
structure ScanState where
  domains : List Domain
  jobs : List ScanJob
  queue : List QueueMsg
deriving Repr, DecidableEq

/-- `POST /scan` (src/backend/main.py:130-210, `create_scan`): normalize the
domain (`lower().strip()`), reject when empty or dot-free, get-or-create the
`Domain` record **by name only** (no owner filter in the query), commit a
`pending` `ScanJob`, then `LPUSH` the payload.  `enqueueOk` models whether the
Redis push raises; when it raises, the generic `except Exception` handler
turns it into a 500 while both committed rows remain as they are. -/
def create_scan (st : ScanState) (caller : Nat) (reqDomain scanType priority : String)
    (enqueueOk : Bool) (nextDomainId nextJobId : Nat) :
    Except ApiError ScanResponse × ScanState :=
  let domain := pyStrip (pyLower reqDomain)
  if domain = "" ∨ ¬ (pyContains domain '.') then
    (.error (.badRequest "Invalid domain format"), st)
  else
    let found := st.domains.find? (fun x => x.domain == domain)
    let drec : Domain :=
      match found with
      | some x => x
      | none => { id := nextDomainId, user_id := caller, domain := domain
                  priority := priority }
    let domains' : List Domain :=
      match found with
      | some _ => st.domains
      | none => st.domains ++ [drec]
    let job : ScanJob :=
      { id := nextJobId, domain_id := drec.id, job_type := scanType
        status := "pending", started_at := none, completed_at := none
        error_message := none }
    let jobs' := st.jobs ++ [job]
    if enqueueOk then
      (.ok { job_id := job.id, domain := domain, scan_type := scanType
             status := "pending" },
       { domains := domains', jobs := jobs'
         queue := { queue := "queue:" ++ scanType, job_id := job.id
                    domain := domain, scan_type := scanType
                    priority := priority } :: st.queue })
    else
      (.error (.internal "Failed to create scan"),
       { domains := domains', jobs := jobs', queue := st.queue })

/-- The per-row UPDATE of `update_job_status` (src/workers/shared_utils.py:63-114):
`processing` also sets `started_at = NOW()`; `completed`/`failed` also set
`completed_at = NOW()` and `error_message`; any other status only overwrites
`status`.  No branch inspects the current status of the row. -/
def jobUpdateRow (status : String) (error_message : Option String) (now : ℚ)
    (j : ScanJob) : ScanJob :=
  if status = "processing" then
    { j with status := status, started_at := some now }
  else if status = "completed" ∨ status = "failed" then
    { j with status := status, completed_at := some now
             error_message := error_message }
  else
    { j with status := status }

/-- `update_job_status` (src/workers/shared_utils.py:63-114): run the UPDATE
`WHERE id = job_id` and report success (`True`; database failures are not
modelled). -/
def update_job_status (jobs : List ScanJob) (job_id : Nat) (status : String)
    (error_message : Option String) (now : ℚ) : List ScanJob × Bool :=
  (jobs.map (fun j => if j.id == job_id then
      jobUpdateRow status error_message now j
    else j), true)

/-- Weight constants of `RiskScorer` (src/core/risk_engine.py:50-52).  Python
float literals are modelled as exact rationals. -/
def WEIGHT_VISIBILITY : ℚ := 0.40

/-- Age weight of `RiskScorer`. -/
def WEIGHT_AGE : ℚ := 0.30

/-- Asset-value weight of `RiskScorer`. -/
def WEIGHT_ASSET_VALUE : ℚ := 0.30

/-- `RiskScorer._score_visibility` (src/core/risk_engine.py:108-125):
dictionary lookup on the lowercased label with default 60. -/
def _score_visibility (visibility : String) : ℚ :=
  let v := pyLower visibility
  if v = "public" then 100
  else if v = "private" then 50
  else if v = "internal" then 25
  else if v = "unknown" then 60
  else 60

/-- `RiskScorer._score_age` (src/core/risk_engine.py:127-152) as a function of
`age_days = (now - discovered_at).days`: negative ages clamp to 0; 0 days
scores 100; up to 30 days decays linearly by 50/30 per day; older is 50. -/
def _score_age (age_days : ℤ) : ℚ :=
  let d : ℤ := if age_days < 0 then 0 else age_days
  if d = 0 then 100
  else if d ≤ 30 then 100 - (d : ℚ) * (50 / 30)
  else 50

/-- `RiskScorer._score_asset_value` (src/core/risk_engine.py:154-176):
dictionary lookup on the lowercased label with default 60. -/
def _score_asset_value (asset_value : String) : ℚ :=
  let v := pyLower asset_value
  if v = "production" then 100
  else if v = "prod" then 100
  else if v = "staging" then 70
  else if v = "stage" then 70
  else if v = "development" then 40
  else if v = "dev" then 40
  else if v = "test" then 30
  else if v = "unknown" then 60
  else 60

/-- The weighted combination computed inside `calculate_risk`
(src/core/risk_engine.py:76-80). -/
def weighted_score (v a s : ℚ) : ℚ :=
  v * WEIGHT_VISIBILITY + a * WEIGHT_AGE + s * WEIGHT_ASSET_VALUE

/-- `RiskScorer._determine_severity` (src/core/risk_engine.py:178-187). -/
def _determine_severity (score : ℤ) : String :=
  if score ≥ 80 then "CRITICAL"
  else if score ≥ 60 then "HIGH"
  else if score ≥ 40 then "MEDIUM"
  else "LOW"

/-- `RiskScorer.calculate_risk` (src/core/risk_engine.py:59-106), restricted
to the score and severity (the reasoning string is not modelled): score the
three factors, combine with the weights, truncate to an integer with `int()`,
and bucket the severity. -/
def calculate_risk (visibility : String) (age_days : ℤ) (asset_value : String) :
    ℤ × String :=
  let visibility_score := _score_visibility visibility
  let age_score := _score_age age_days
  let asset_score := _score_asset_value asset_value
  let final_score := intTrunc (weighted_score visibility_score age_score asset_score)
  (final_score, _determine_severity final_score)

/-- Python `str.lower()` at the character-list level (the fuzzer is embedded
over `List Char` so that slicing indices stay explicit). -/
def lowerChars (l : List Char) : List Char := l.map Char.toLower

/-- Python `str.strip()` at the character-list level. -/
def stripChars (l : List Char) : List Char :=
  ((l.dropWhile Char.isWhitespace).reverse.dropWhile Char.isWhitespace).reverse

/-- `DomainFuzzer.COMMON_TLDS` (src/workers/typosquat_worker.py:28-31). -/
def COMMON_TLDS : List (List Char) :=
  ["com".data, "net".data, "org".data, "co".data, "io".data, "app".data,
   "dev".data, "ai".data, "info".data, "biz".data, "online".data, "site".data,
   "tech".data, "store".data]

/-- `DomainFuzzer.HOMOGLYPHS` (src/workers/typosquat_worker.py:33-42) as an
association list (a Python dict with insertion order). -/
def HOMOGLYPHS_TABLE : List (Char × List Char) :=
  [('a', ['4', '@']), ('e', ['3']), ('i', ['1', 'l']), ('o', ['0']),
   ('s', ['5', '$']), ('l', ['1', 'i']), ('g', ['9']), ('b', ['8'])]

/-- Dict lookup in `HOMOGLYPHS`; characters outside the table map to `[]`
(the code guards with `if char in self.HOMOGLYPHS`). -/
def HOMOGLYPHS (c : Char) : List Char :=
  ((HOMOGLYPHS_TABLE.find? (fun p => p.1 == c)).map Prod.snd).getD []

/-- The QWERTY adjacency dict of `_keyboard_typos`
(src/workers/typosquat_worker.py:142-153). -/
def KEYBOARD_TABLE : List (Char × List Char) :=
  [('q', ['w', 'a']), ('w', ['q', 'e', 's']), ('e', ['w', 'r', 'd']),
   ('r', ['e', 't', 'f']), ('t', ['r', 'y', 'g']), ('y', ['t', 'u', 'h']),
   ('u', ['y', 'i', 'j']), ('i', ['u', 'o', 'k']), ('o', ['i', 'p', 'l']),
   ('p', ['o', 'l']), ('a', ['q', 's', 'z']), ('s', ['a', 'w', 'd', 'x']),
   ('d', ['s', 'e', 'f', 'c']), ('f', ['d', 'r', 'g', 'v']),
   ('g', ['f', 't', 'h', 'b']), ('h', ['g', 'y', 'j', 'n']),
   ('j', ['h', 'u', 'k', 'm']), ('k', ['j', 'i', 'l']), ('l', ['k', 'o']),
   ('z', ['a', 'x']), ('x', ['z', 's', 'c']), ('c', ['x', 'd', 'v']),
   ('v', ['c', 'f', 'b']), ('b', ['v', 'g', 'n']), ('n', ['b', 'h', 'm']),
   ('m', ['n', 'j'])]

/-- Dict lookup in the QWERTY table; absent keys map to `[]`. -/
def KEYBOARD (c : Char) : List Char :=
  ((KEYBOARD_TABLE.find? (fun p => p.1 == c)).map Prod.snd).getD []

/-- The fuzzer state built by `DomainFuzzer.__init__`
(src/workers/typosquat_worker.py:45-63). -/
structure DomainFuzzer where
  domain : List Char
  name : List Char
  tld : List Char
deriving Repr, DecidableEq

/-- `DomainFuzzer.__init__`: lowercase and strip the input, then split on the
last dot (`rsplit('.', 1)`); a dot-free input keeps the whole input as the
name with default tld `com`. -/
def DomainFuzzer.init (input : List Char) : DomainFuzzer :=
  let domain := stripChars (lowerChars input)
  if '.' ∈ domain then
    let rev := domain.reverse
    { domain := domain
      name := ((rev.dropWhile (fun c => ¬ c = '.')).drop 1).reverse
      tld := (rev.takeWhile (fun c => ¬ c = '.')).reverse }
  else
    { domain := domain, name := domain, tld := "com".data }

/-- `f"{variant}.{tld}"`: every family emits the variant label joined to a
tld with a single dot. -/
def mkCandidate (v t : List Char) : List Char := v ++ '.' :: t

/-- `DomainFuzzer._omission` (src/workers/typosquat_worker.py:104-111): drop
each character, keeping variants of length > 2. -/
def _omission (n t : List Char) : List (List Char) :=
  (List.range n.length).filterMap fun i =>
    let v := n.take i ++ n.drop (i + 1)
    if 2 < v.length then some (mkCandidate v t) else none

/-- `DomainFuzzer._repetition` (src/workers/typosquat_worker.py:113-119):
`name[:i] + name[i] + name[i:]`. -/
def _repetition (n t : List Char) : List (List Char) :=
  (List.range n.length).map fun i => mkCandidate (n.take (i + 1) ++ n.drop i) t

/-- `DomainFuzzer._transposition` (src/workers/typosquat_worker.py:121-129):
swap the adjacent pair at each position. -/
def _transposition (n t : List Char) : List (List Char) :=
  (List.range (n.length - 1)).map fun i =>
    mkCandidate (n.take i ++ n.getD (i + 1) ' ' :: n.getD i ' ' :: n.drop (i + 2)) t

/-- `DomainFuzzer._homoglyph` (src/workers/typosquat_worker.py:131-138). -/
def _homoglyph (n t : List Char) : List (List Char) :=
  (List.range n.length).flatMap fun i =>
    (HOMOGLYPHS (n.getD i ' ')).map fun sub =>
      mkCandidate (n.take i ++ sub :: n.drop (i + 1)) t

/-- `DomainFuzzer._keyboard_typos` (src/workers/typosquat_worker.py:140-161):
only the first two neighbours of each key are used. -/
def _keyboard_typos (n t : List Char) : List (List Char) :=
  (List.range n.length).flatMap fun i =>
    ((KEYBOARD (n.getD i ' ')).take 2).map fun adj =>
      mkCandidate (n.take i ++ adj :: n.drop (i + 1)) t

/-- `DomainFuzzer._tld_swap` (src/workers/typosquat_worker.py:163-169). -/
def _tld_swap (n t : List Char) : List (List Char) :=
  COMMON_TLDS.filterMap fun tld2 =>
    if tld2 ≠ t then some (mkCandidate n tld2) else none

/-- `DomainFuzzer._hyphenation` (src/workers/typosquat_worker.py:171-179):
for names of length ≥ 4, insert a hyphen at positions 2 .. len-2. -/
def _hyphenation (n t : List Char) : List (List Char) :=
  if 4 ≤ n.length then
    ((List.range (n.length - 1)).drop 2).map fun i =>
      mkCandidate (n.take i ++ '-' :: n.drop i) t
  else []

/-- `DomainFuzzer._subdomain_prefix` (src/workers/typosquat_worker.py:181-189). -/
def _subdomain_prefix (n t : List Char) : List (List Char) :=
  ["www".data, "secure".data, "login".data, "account".data, "verify".data,
   "update".data].flatMap fun p =>
    [mkCandidate (p ++ '-' :: n) t, mkCandidate (p ++ n) t]

/-- `DomainFuzzer.generate_variations` (src/workers/typosquat_worker.py:65-102):
the set union of the eight families (a Python `set`, modelled as a
deduplicated list) with the original domain discarded. -/
def DomainFuzzer.generate_variations (fz : DomainFuzzer) : List (List Char) :=
  (( _omission fz.name fz.tld ++ _repetition fz.name fz.tld
    ++ _transposition fz.name fz.tld ++ _homoglyph fz.name fz.tld
    ++ _keyboard_typos fz.name fz.tld ++ _tld_swap fz.name fz.tld
    ++ _hyphenation fz.name fz.tld ++ _subdomain_prefix fz.name fz.tld).dedup).filter
    (fun c => ¬ c = fz.domain)

/-- `GhostServer.TIMESTAMP_TOLERANCE` (src/ghost_protocol/ghost_server.py:69). -/
def TIMESTAMP_TOLERANCE : ℤ := 10

/-- `GhostServer.RATE_LIMIT_WINDOW` (src/ghost_protocol/ghost_server.py:72). -/
def RATE_LIMIT_WINDOW : ℚ := 5

/-- `GhostServer.WHITELIST_DURATION` (src/ghost_protocol/ghost_server.py:75). -/
def WHITELIST_DURATION : ℕ := 60

/-- Python `str.split(sep)` for a one-character separator: empty parts are
kept and `"".split(sep) == [""]`. -/
def pySplit (sep : Char) : List Char → List (List Char)
  | [] => [[]]
  | c :: rest =>
    if c = sep then [] :: pySplit sep rest
    else
      match pySplit sep rest with
      | [] => [[c]]
      | h :: t => (c :: h) :: t

/-- Rejoin split parts with the separator (`sep.join(parts)`); inverse of
`pySplit`, used to state what a successful three-way split implies. -/
def joinSep (sep : Char) : List (List Char) → List Char
  | [] => []
  | [x] => x
  | x :: xs => x ++ sep :: joinSep sep xs

/-- Accumulate a decimal number; any non-digit character fails. -/
def parseDigits (l : List Char) : Option ℕ :=
  l.foldl (fun acc c =>
    match acc with
    | none => none
    | some n => if c.isDigit then some (n * 10 + (c.toNat - '0'.toNat)) else none)
    (some 0)

/-- Python `int(str)` restricted to an optional sign followed by decimal
digits (surrounding whitespace and digit-group underscores, which CPython
also tolerates, are not modelled). -/
def pyInt? (l : List Char) : Option ℤ :=
  match l with
  | [] => none
  | '-' :: rest => if rest.isEmpty then none else (parseDigits rest).map (fun n => -(n : ℤ))
  | '+' :: rest => if rest.isEmpty then none else (parseDigits rest).map (fun n => (n : ℤ))
  | _ => (parseDigits l).map (fun n => (n : ℤ))

/-- The knock server's in-memory per-source state
(`GhostServer.knock_times`, a `defaultdict(float)`): dict assignment is
modelled as a shadowing prepend, lookup takes the most recent binding and
absent keys read 0. -/
structure KnockState where
  knock_times : List (List Char × ℚ)
deriving Repr, DecidableEq

/-- `self.knock_times.get(source_ip, 0)`. -/
def lookupKnock (st : KnockState) (ip : List Char) : ℚ :=
  ((st.knock_times.find? (fun p => p.1 == ip)).map Prod.snd).getD 0

/-- `self.knock_times[source_ip] = time.time()`. -/
def setKnock (st : KnockState) (ip : List Char) (t : ℚ) : KnockState :=
  { knock_times := (ip, t) :: st.knock_times }

/-- `GhostServer.validate_knock` (src/ghost_protocol/ghost_server.py:106-182).
The sealed-box decryption is abstracted: the argument is the decrypted
plaintext, `none` standing for a `CryptoError` (wrong key or corrupted
packet).  Checks, in source order: split into exactly three `:`-separated
parts; parse the timestamp; `|int(now) - ts| ≤ 10`; source IP equals the
claimed IP; at least 5 seconds since this source's last accepted knock.
Only on full success is the per-source knock time updated.  Returns
`(is_valid, client_ip, state)`. -/
def validate_knock (plain? : Option (List Char)) (source_ip : List Char)
    (now : ℚ) (st : KnockState) : Bool × Option (List Char) × KnockState :=
  match plain? with
  | none => (false, none, st)
  | some plaintext =>
    match pySplit ':' plaintext with
    | [timestamp_str, _nonce_hex, claimed_ip] =>
      match pyInt? timestamp_str with
      | none => (false, none, st)
      | some knock_timestamp =>
        let current_timestamp := intTrunc now
        let time_delta := |current_timestamp - knock_timestamp|
        if time_delta > TIMESTAMP_TOLERANCE then (false, none, st)
        else if ¬ source_ip = claimed_ip then (false, none, st)
        else if now - lookupKnock st source_ip < RATE_LIMIT_WINDOW then
          (false, none, st)
        else (true, some claimed_ip, setKnock st source_ip now)
    | _ => (false, none, st)

/-- The `ipset add ghost_whitelist <ip> timeout <duration>` command built by
`open_firewall` (src/ghost_protocol/ghost_server.py:184-219). -/
structure FirewallCmd where
  ipset_name : List Char
  ip : List Char
  timeout : ℕ
deriving Repr, DecidableEq

/-- `GhostServer.open_firewall`: whitelist the IP for `WHITELIST_DURATION`
seconds. -/
def open_firewall (ip : List Char) : FirewallCmd :=
  { ipset_name := "ghost_whitelist".data, ip := ip, timeout := WHITELIST_DURATION }

/-- `GhostServer.handle_packet` (src/ghost_protocol/ghost_server.py:221-257):
validate the knock and, only when valid, trigger the firewall whitelist
insertion for the returned client IP; invalid knocks produce no output of
any kind. -/
def handle_packet (plain? : Option (List Char)) (source_ip : List Char)
    (now : ℚ) (st : KnockState) : Option FirewallCmd × KnockState :=
  match validate_knock plain? source_ip now st with
  | (true, some client_ip, st') => (some (open_firewall client_ip), st')
  | (true, none, st') => (none, st')
  | (false, _, st') => (none, st')

/-- A concrete in-flight scan job. -/
def jobProcessing : ScanJob :=
  { id := 1, domain_id := 1, job_type := "typosquat", status := "processing"
    started_at := some 10, completed_at := none, error_message := none }

/-- A concrete domain record owned by user 7. -/
def domainOfUser7 : Domain :=
  { id := 1, user_id := 7, domain := "example.com", priority := "high" }

end Sentinyl

/-!
## Theorems

Helper lemmas first, then one theorem per claim (with witnesses and
counterexamples where the claim's status requires them).
-/

namespace Sentinyl

/-- For a selected event (`now < countdown_expires_at`) the truncated remaining
countdown equals `max 0 ⌊countdown_expires_at - now⌋`. -/
theorem countdownRemaining_eq_floor (now : ℚ) (e : GuardEvent)
    (h : now < e.countdown_expires_at) :
    countdownRemaining now e = max 0 ⌊e.countdown_expires_at - now⌋ := by
  unfold countdownRemaining intTrunc
  rw [if_pos (by linarith)]

/-- The poll's `should_block` cascade equals the disjunction
`response = block ∨ (response = none ∧ remaining = 0)`. -/
theorem pollShouldBlock_eq (now : ℚ) (e : GuardEvent) :
    pollShouldBlock now e =
      decide (e.admin_response = some "block" ∨
        (e.admin_response = none ∧ countdownRemaining now e = 0)) := by
  unfold pollShouldBlock
  split_ifs with h1 h2 <;> simp_all

/-- Python truncation `int()` is monotone on the rationals. -/
theorem intTrunc_mono {q r : ℚ} (h : q ≤ r) : intTrunc q ≤ intTrunc r := by
  unfold intTrunc
  by_cases h1 : 0 ≤ q
  · rw [if_pos h1, if_pos (le_trans h1 h)]
    exact Int.floor_le_floor h
  · by_cases h2 : 0 ≤ r
    · rw [if_neg h1, if_pos h2]
      refine le_trans ?_ (Int.floor_nonneg.mpr h2)
      rw [Int.ceil_le]
      exact_mod_cast le_of_not_le h1
    · rw [if_neg h1, if_neg h2]
      exact Int.ceil_le_ceil h

/-- `jobUpdateRow` never changes the row id. -/
theorem jobUpdateRow_id (s : String) (err : Option String) (now : ℚ)
    (j : ScanJob) : (jobUpdateRow s err now j).id = j.id := by
  unfold jobUpdateRow
  split_ifs <;> rfl

/-- Every branch of `jobUpdateRow` overwrites the status field. -/
theorem jobUpdateRow_status (s : String) (err : Option String) (now : ℚ)
    (j : ScanJob) : (jobUpdateRow s err now j).status = s := by
  unfold jobUpdateRow
  split_ifs <;> rfl

/-- Looking a row up after an id-preserving per-row update commutes with the
update. -/
theorem find?_map_row (jobs : List ScanJob) (id : Nat) (f : ScanJob → ScanJob)
    (hid : ∀ j, (f j).id = j.id) :
    (jobs.map (fun j => if j.id == id then f j else j)).find?
        (fun j => j.id == id)
      = (jobs.find? (fun j => j.id == id)).map f := by
  induction jobs with
  | nil => rfl
  | cons a l ih =>
    by_cases h : (a.id == id) = true
    · simp [List.find?, h, hid a]
    · have hb : (a.id == id) = false := by simpa using h
      simp only [List.map_cons, hb, Bool.false_eq_true, if_false, List.find?]
      exact ih

/-- `update_job_status` rewrites exactly the row with the given id, via
`jobUpdateRow`. -/
theorem update_job_status_find (jobs : List ScanJob) (id : Nat) (s : String)
    (err : Option String) (now : ℚ) :
    (update_job_status jobs id s err now).1.find? (fun j => j.id == id)
      = (jobs.find? (fun j => j.id == id)).map (jobUpdateRow s err now) :=
  find?_map_row jobs id (jobUpdateRow s err now) (jobUpdateRow_id s err now)

/-- On a valid domain, `create_scan` answers 202/`pending` when the enqueue
succeeds and 500 when it fails. -/
theorem create_scan_result (st : ScanState) (caller : Nat) (d ty pr : String)
    (eOk : Bool) (nd nj : Nat)
    (hne : pyStrip (pyLower d) ≠ "")
    (hc : pyContains (pyStrip (pyLower d)) '.' = true) :
    (create_scan st caller d ty pr eOk nd nj).1
      = if eOk then
          .ok { job_id := nj, domain := pyStrip (pyLower d), scan_type := ty
                status := "pending" }
        else .error (.internal "Failed to create scan") := by
  cases eOk <;>
    cases hfind : st.domains.find? (fun x => x.domain == pyStrip (pyLower d)) <;>
      simp [create_scan, hfind, hne, hc]

/-- On a valid domain whose record exists, the committed job row is attached
to the found record, whatever its owner. -/
theorem create_scan_jobs_found (st : ScanState) (caller : Nat) (d ty pr : String)
    (eOk : Bool) (nd nj : Nat) (dr : Domain)
    (hne : pyStrip (pyLower d) ≠ "")
    (hc : pyContains (pyStrip (pyLower d)) '.' = true)
    (hfind : st.domains.find? (fun x => x.domain == pyStrip (pyLower d)) = some dr) :
    (create_scan st caller d ty pr eOk nd nj).2.jobs
      = st.jobs ++
        [{ id := nj, domain_id := dr.id, job_type := ty,
           status := "pending", started_at := none, completed_at := none,
           error_message := none }] := by
  cases eOk <;> simp [create_scan, hfind, hne, hc]

/-- On a valid domain with no existing record, the committed job row is
attached to the freshly created record. -/
theorem create_scan_jobs_missing (st : ScanState) (caller : Nat) (d ty pr : String)
    (eOk : Bool) (nd nj : Nat)
    (hne : pyStrip (pyLower d) ≠ "")
    (hc : pyContains (pyStrip (pyLower d)) '.' = true)
    (hfind : st.domains.find? (fun x => x.domain == pyStrip (pyLower d)) = none) :
    (create_scan st caller d ty pr eOk nd nj).2.jobs
      = st.jobs ++
        [{ id := nj, domain_id := nd, job_type := ty,
           status := "pending", started_at := none, completed_at := none,
           error_message := none }] := by
  cases eOk <;> simp [create_scan, hfind, hne, hc]

/-- When the record exists the domains table is untouched. -/
theorem create_scan_domains_found (st : ScanState) (caller : Nat) (d ty pr : String)
    (eOk : Bool) (nd nj : Nat) (dr : Domain)
    (hne : pyStrip (pyLower d) ≠ "")
    (hc : pyContains (pyStrip (pyLower d)) '.' = true)
    (hfind : st.domains.find? (fun x => x.domain == pyStrip (pyLower d)) = some dr) :
    (create_scan st caller d ty pr eOk nd nj).2.domains = st.domains := by
  cases eOk <;> simp [create_scan, hfind, hne, hc]

/-- When no record exists a record owned by the caller is appended. -/
theorem create_scan_domains_missing (st : ScanState) (caller : Nat)
    (d ty pr : String) (eOk : Bool) (nd nj : Nat)
    (hne : pyStrip (pyLower d) ≠ "")
    (hc : pyContains (pyStrip (pyLower d)) '.' = true)
    (hfind : st.domains.find? (fun x => x.domain == pyStrip (pyLower d)) = none) :
    (create_scan st caller d ty pr eOk nd nj).2.domains
      = st.domains ++
        [{ id := nd, user_id := caller,
           domain := pyStrip (pyLower d), priority := pr }] := by
  cases eOk <;> simp [create_scan, hfind, hne, hc]

end Sentinyl

/-- C1: the claim states that a `GuardEvent` whose countdown expired with no
operator verdict ends up with `blocked = true` (the poll auto-arms it).  The
code refutes this: the poll's query selects only events with
`countdown_expires_at > now`, so once the countdown has expired the event is
never returned and its `blocked` flag is never set.  Here `evNoVerdict`
(expiry at t = 100, no verdict) is polled at t = 102 and t = 3600: it is
absent from the response both times and `blocked` stays `false`. -/
theorem c1_expired_event_never_auto_blocked :
    (Sentinyl.get_guard_status [Sentinyl.evNoVerdict] 1 102).1 = [] ∧
    ((Sentinyl.get_guard_status [Sentinyl.evNoVerdict] 1 102).2.map
      Sentinyl.GuardEvent.blocked) = [false] ∧
    ((Sentinyl.get_guard_status [Sentinyl.evNoVerdict] 1 3600).2.map
      Sentinyl.GuardEvent.blocked) = [false] := by
  refine ⟨?_, ?_, ?_⟩ <;> decide

/-- C2 (counterexample): the claim states that the status poll also returns
events whose operator response is `block` (and unacknowledged ones) after
their countdown expired.  `evBlockVerdict` has `admin_response = block` and
expiry at t = 100, yet the poll at t = 102 returns no events. -/
theorem c2_blocked_event_not_returned_after_expiry :
    Sentinyl.evBlockVerdict.admin_response = some "block" ∧
    Sentinyl.evBlockVerdict.countdown_expires_at < 102 ∧
    (Sentinyl.get_guard_status [Sentinyl.evBlockVerdict] 1 102).1 = [] := by
  refine ⟨?_, ?_, ?_⟩ <;> decide

/-- C2 (amended): the status poll returns exactly the events of the agent with
`countdown_expires_at > now` — with no clause for `block` verdicts or
unacknowledged events — and for each returned event computes
`countdown_remaining = max 0 ⌊expires - now⌋` and
`should_block = (response = block) ∨ (response = none ∧ remaining = 0)`. -/
theorem c2_poll_returns_exactly_unexpired (db : List Sentinyl.GuardEvent)
    (agent : Nat) (now : ℚ) (s : Sentinyl.GuardEventStatus) :
    s ∈ (Sentinyl.get_guard_status db agent now).1 ↔
      ∃ e ∈ db, e.agent_id = agent ∧ now < e.countdown_expires_at ∧
        s = { event_id := e.id
              anomaly_type := e.anomaly_type
              severity := e.severity
              admin_response := e.admin_response
              countdown_remaining := max 0 ⌊e.countdown_expires_at - now⌋
              should_block := decide (e.admin_response = some "block" ∨
                (e.admin_response = none ∧
                  max 0 ⌊e.countdown_expires_at - now⌋ = 0)) } := by
  unfold Sentinyl.get_guard_status
  simp only [List.mem_map, List.mem_filter, Sentinyl.guardSelected]
  constructor
  · rintro ⟨e, ⟨he, hsel⟩, rfl⟩
    simp only [Bool.and_eq_true, beq_iff_eq, decide_eq_true_eq] at hsel
    obtain ⟨hag, hlt⟩ := hsel
    refine ⟨e, he, hag, hlt, ?_⟩
    have hrem := Sentinyl.countdownRemaining_eq_floor now e hlt
    rw [Sentinyl.pollShouldBlock_eq, hrem]
  · rintro ⟨e, he, hag, hlt, rfl⟩
    refine ⟨e, ⟨he, ?_⟩, ?_⟩
    · simp [hag, hlt]
    · have hrem := Sentinyl.countdownRemaining_eq_floor now e hlt
      rw [Sentinyl.pollShouldBlock_eq, hrem]

/-- C2 (witness): the amended theorem applied to the one-event table
`[evBlockVerdict]` polled at t = 50 (inside the countdown window): the
membership equivalence produces the expected status entry. -/
theorem c2_poll_returns_exactly_unexpired_witness :
    ({ event_id := 2, anomaly_type := "process", severity := "critical"
       admin_response := some "block"
       countdown_remaining := max 0 ⌊(100 : ℚ) - 50⌋
       should_block := decide ((some "block" : Option String) = some "block" ∨
         ((some "block" : Option String) = none ∧
           max 0 ⌊(100 : ℚ) - 50⌋ = 0)) } : Sentinyl.GuardEventStatus) ∈
      (Sentinyl.get_guard_status [Sentinyl.evBlockVerdict] 1 50).1 :=
  (c2_poll_returns_exactly_unexpired [Sentinyl.evBlockVerdict] 1 50 _).mpr
    ⟨Sentinyl.evBlockVerdict, by simp, rfl, by norm_num [Sentinyl.evBlockVerdict], rfl⟩

/-- C3: the claim mandates idempotence (a repeated identical verdict is a
no-op) and conflict rejection.  The code instead overwrites unconditionally:
submitting `safe` for `evBlockVerdict` (which already has verdict `block`)
succeeds and rewrites `admin_response`, `admin_user` and `responded_at` —
while `blocked` stays `true` — and a repeated `block` verdict is not a no-op
either, since it rewrites `admin_user` and `responded_at`. -/
theorem c3_conflicting_verdict_overwrites :
    Sentinyl.receive_admin_response [Sentinyl.evBlockVerdict] 2 "safe" "bob" 200 =
      .ok [{ id := 2, agent_id := 1, anomaly_type := "process"
             severity := "critical", admin_response := some "safe"
             admin_user := some "bob", responded_at := some 200
             countdown_expires_at := 100, blocked := true }] ∧
    Sentinyl.receive_admin_response [Sentinyl.evBlockVerdict] 2 "block" "bob" 200 =
      .ok [{ id := 2, agent_id := 1, anomaly_type := "process"
             severity := "critical", admin_response := some "block"
             admin_user := some "bob", responded_at := some 200
             countdown_expires_at := 100, blocked := true }] := by
  refine ⟨?_, ?_⟩ <;> rfl

/-- C4 (counterexample): the claim states that when the queue enqueue fails
after the `ScanJob` row was created, the job is marked `failed` with a
transport error.  In the code the `redis_client.lpush` exception is caught by
the generic handler, which raises a 500 without touching the already
committed row: after a failed enqueue the only job row still has status
`pending`, not `failed`. -/
theorem c4_enqueue_failure_leaves_job_pending :
    (Sentinyl.create_scan ⟨[], [], []⟩ 1 "example.com" "typosquat" "medium" false 10 20).1
      = .error (.internal "Failed to create scan") ∧
    ((Sentinyl.create_scan ⟨[], [], []⟩ 1 "example.com" "typosquat" "medium"
        false 10 20).2.jobs.map Sentinyl.ScanJob.status) = ["pending"] := by
  refine ⟨?_, ?_⟩ <;> decide

/-- C4 (amended): the ingress never answers `/scan` with 2xx without a
persisted `ScanJob` row with matching `job_id` and status `pending`; and when
the enqueue fails (on a valid domain) the failure is propagated as a 500
while the committed job row remains in status `pending` (it is not marked
`failed`). -/
theorem c4_no_accept_without_pending_row (st : Sentinyl.ScanState) (caller : Nat)
    (d ty pr : String) (eOk : Bool) (nd nj : Nat) :
    (∀ r : Sentinyl.ScanResponse,
        (Sentinyl.create_scan st caller d ty pr eOk nd nj).1 = .ok r →
        ∃ j ∈ (Sentinyl.create_scan st caller d ty pr eOk nd nj).2.jobs,
          j.id = r.job_id ∧ j.status = "pending") ∧
    (eOk = false →
      Sentinyl.pyStrip (Sentinyl.pyLower d) ≠ "" →
      Sentinyl.pyContains (Sentinyl.pyStrip (Sentinyl.pyLower d)) '.' = true →
        (Sentinyl.create_scan st caller d ty pr eOk nd nj).1
          = .error (.internal "Failed to create scan") ∧
        ∃ j ∈ (Sentinyl.create_scan st caller d ty pr eOk nd nj).2.jobs,
          j.id = nj ∧ j.status = "pending") := by
  constructor
  · intro r hr
    by_cases hne : Sentinyl.pyStrip (Sentinyl.pyLower d) = ""
    · simp [Sentinyl.create_scan, hne] at hr
    · by_cases hc : Sentinyl.pyContains (Sentinyl.pyStrip (Sentinyl.pyLower d)) '.' = true
      · rw [Sentinyl.create_scan_result st caller d ty pr eOk nd nj hne hc] at hr
        cases eOk
        · simp at hr
        · simp only [if_true] at hr
          cases hfind : st.domains.find?
              (fun x => x.domain == Sentinyl.pyStrip (Sentinyl.pyLower d)) with
          | none =>
            rw [Sentinyl.create_scan_jobs_missing st caller d ty pr true nd nj hne hc hfind]
            refine ⟨_, List.mem_append_right _ (List.mem_singleton_self _), ?_, rfl⟩
            cases hr
            rfl
          | some dr =>
            rw [Sentinyl.create_scan_jobs_found st caller d ty pr true nd nj dr hne hc hfind]
            refine ⟨_, List.mem_append_right _ (List.mem_singleton_self _), ?_, rfl⟩
            cases hr
            rfl
      · have hcf : Sentinyl.pyContains (Sentinyl.pyStrip (Sentinyl.pyLower d)) '.' = false := by
          simpa using hc
        simp [Sentinyl.create_scan, hcf] at hr
  · intro heOk hne hc
    subst heOk
    refine ⟨Sentinyl.create_scan_result st caller d ty pr false nd nj hne hc, ?_⟩
    cases hfind : st.domains.find?
        (fun x => x.domain == Sentinyl.pyStrip (Sentinyl.pyLower d)) with
    | none =>
      rw [Sentinyl.create_scan_jobs_missing st caller d ty pr false nd nj hne hc hfind]
      exact ⟨_, List.mem_append_right _ (List.mem_singleton_self _), rfl, rfl⟩
    | some dr =>
      rw [Sentinyl.create_scan_jobs_found st caller d ty pr false nd nj dr hne hc hfind]
      exact ⟨_, List.mem_append_right _ (List.mem_singleton_self _), rfl, rfl⟩

/-- C4 (witness): the amended theorem applied to an empty state, caller 1,
domain `example.com`, a failing enqueue and job id 20. -/
theorem c4_no_accept_without_pending_row_witness :
    (Sentinyl.create_scan ⟨[], [], []⟩ 1 "example.com" "typosquat" "medium" false 10 20).1
      = .error (.internal "Failed to create scan") ∧
    ∃ j ∈ (Sentinyl.create_scan ⟨[], [], []⟩ 1 "example.com" "typosquat"
        "medium" false 10 20).2.jobs,
      j.id = 20 ∧ j.status = "pending" :=
  (c4_no_accept_without_pending_row ⟨[], [], []⟩ 1 "example.com" "typosquat"
      "medium" false 10 20).2 rfl (by decide) (by decide)

/-- C5 (counterexample): the claim states that once a `ScanJob` is terminal no
later status update succeeds.  `update_job_status` has no guard on the current
status: after driving `jobProcessing` to `completed` (at t = 20), a further
call moving it back to `processing` (at t = 30) returns success and the row's
status is again `processing` — a backward transition. -/
theorem c5_terminal_job_can_be_updated_again :
    ((Sentinyl.update_job_status [Sentinyl.jobProcessing] 1 "completed" none 20).1.map
      Sentinyl.ScanJob.status) = ["completed"] ∧
    (Sentinyl.update_job_status
        (Sentinyl.update_job_status [Sentinyl.jobProcessing] 1 "completed" none 20).1
        1 "processing" none 30).2 = true ∧
    ((Sentinyl.update_job_status
        (Sentinyl.update_job_status [Sentinyl.jobProcessing] 1 "completed" none 20).1
        1 "processing" none 30).1.map Sentinyl.ScanJob.status) = ["processing"] := by
  refine ⟨?_, ?_, ?_⟩ <;> decide

/-- C5 (amended): the status update that makes a `ScanJob` terminal
(`completed` or `failed`) does set `completed_at` (and `error_message`), and
it reports success — but a later call of the status-update operation on the
same job also succeeds and overwrites the status with whatever was requested:
monotonicity of `pending → processing → terminal` is not enforced by
`update_job_status` itself, only by the order of the workers' calls. -/
theorem c5_terminal_update_sets_completed_at (jobs : List Sentinyl.ScanJob)
    (id : Nat) (s s' : String) (err err' : Option String) (t t' : ℚ)
    (j : Sentinyl.ScanJob)
    (hs : s = "completed" ∨ s = "failed")
    (hj : jobs.find? (fun j => j.id == id) = some j) :
    (Sentinyl.update_job_status jobs id s err t).2 = true ∧
    (Sentinyl.update_job_status jobs id s err t).1.find? (fun j => j.id == id)
      = some { j with status := s, completed_at := some t, error_message := err } ∧
    (Sentinyl.update_job_status
        (Sentinyl.update_job_status jobs id s err t).1 id s' err' t').2 = true ∧
    ((Sentinyl.update_job_status
        (Sentinyl.update_job_status jobs id s err t).1 id s' err' t').1.find?
          (fun j => j.id == id)).map Sentinyl.ScanJob.status = some s' := by
  have h1 := Sentinyl.update_job_status_find jobs id s err t
  rw [hj] at h1
  have hrow : Sentinyl.jobUpdateRow s err t j
      = { j with status := s, completed_at := some t, error_message := err } := by
    rcases hs with rfl | rfl <;> simp [Sentinyl.jobUpdateRow]
  refine ⟨rfl, ?_, rfl, ?_⟩
  · rw [h1]
    exact congrArg some hrow
  · have h2 := Sentinyl.update_job_status_find
      (Sentinyl.update_job_status jobs id s err t).1 id s' err' t'
    rw [h2, h1]
    simp [Sentinyl.jobUpdateRow_status]

/-- C5 (witness): the amended theorem applied to the single job
`jobProcessing`, driven to `completed` at t = 20 and back to `processing` at
t = 30. -/
theorem c5_terminal_update_sets_completed_at_witness :
    (Sentinyl.update_job_status [Sentinyl.jobProcessing] 1 "completed" none 20).1.find?
        (fun j => j.id == 1)
      = some { Sentinyl.jobProcessing with
               status := "completed",
               completed_at := some 20, error_message := none } ∧
    ((Sentinyl.update_job_status
        (Sentinyl.update_job_status [Sentinyl.jobProcessing] 1 "completed" none 20).1
        1 "processing" none 30).1.find? (fun j => j.id == 1)).map
          Sentinyl.ScanJob.status = some "processing" :=
  ⟨(c5_terminal_update_sets_completed_at [Sentinyl.jobProcessing] 1 "completed"
      "processing" none none 20 30 Sentinyl.jobProcessing (Or.inl rfl) rfl).2.1,
   (c5_terminal_update_sets_completed_at [Sentinyl.jobProcessing] 1 "completed"
      "processing" none none 20 30 Sentinyl.jobProcessing (Or.inl rfl) rfl).2.2.2⟩

/-- C9 (counterexample): the claim states that the load-or-create step never
attaches the caller's job to a `Domain` owned by a different user.  The query
filters by name only: here user 2 submits a scan for `example.com`, the table
holds that domain owned by user 7, and the created job is attached to user
7's record (no new record is created for user 2). -/
theorem c9_job_attached_to_other_users_domain :
    Sentinyl.domainOfUser7.user_id = 7 ∧
    (Sentinyl.create_scan ⟨[Sentinyl.domainOfUser7], [], []⟩ 2 "example.com" "typosquat"
        "medium" true 10 20).1
      = .ok { job_id := 20, domain := "example.com", scan_type := "typosquat"
              status := "pending" } ∧
    (Sentinyl.create_scan ⟨[Sentinyl.domainOfUser7], [], []⟩ 2 "example.com" "typosquat"
        "medium" true 10 20).2.jobs
      = [{ id := 20, domain_id := 1, job_type := "typosquat", status := "pending",
           started_at := none, completed_at := none, error_message := none }] ∧
    (Sentinyl.create_scan ⟨[Sentinyl.domainOfUser7], [], []⟩ 2 "example.com" "typosquat"
        "medium" true 10 20).2.domains = [Sentinyl.domainOfUser7] := by
  refine ⟨?_, ?_, ?_, ?_⟩ <;> decide

/-- C9 (amended): the load-or-create step looks the `Domain` up by normalized
name only — when a record with that name exists the job attaches to it
regardless of its owner; only when no record exists is a new one created,
and that new record is owned by the caller. -/
theorem c9_domain_lookup_ignores_owner (st : Sentinyl.ScanState) (caller : Nat)
    (d ty pr : String) (eOk : Bool) (nd nj : Nat) (dr : Sentinyl.Domain)
    (hne : Sentinyl.pyStrip (Sentinyl.pyLower d) ≠ "")
    (hc : Sentinyl.pyContains (Sentinyl.pyStrip (Sentinyl.pyLower d)) '.' = true) :
    (st.domains.find? (fun x => x.domain == Sentinyl.pyStrip (Sentinyl.pyLower d))
        = some dr →
      ∃ j ∈ (Sentinyl.create_scan st caller d ty pr eOk nd nj).2.jobs,
        j.id = nj ∧ j.domain_id = dr.id) ∧
    (st.domains.find? (fun x => x.domain == Sentinyl.pyStrip (Sentinyl.pyLower d))
        = none →
      (∃ dm ∈ (Sentinyl.create_scan st caller d ty pr eOk nd nj).2.domains,
        dm.id = nd ∧ dm.user_id = caller
          ∧ dm.domain = Sentinyl.pyStrip (Sentinyl.pyLower d)) ∧
      ∃ j ∈ (Sentinyl.create_scan st caller d ty pr eOk nd nj).2.jobs,
        j.id = nj ∧ j.domain_id = nd) := by
  constructor
  · intro hfind
    rw [Sentinyl.create_scan_jobs_found st caller d ty pr eOk nd nj dr hne hc hfind]
    exact ⟨_, List.mem_append_right _ (List.mem_singleton_self _), rfl, rfl⟩
  · intro hfind
    constructor
    · rw [Sentinyl.create_scan_domains_missing st caller d ty pr eOk nd nj hne hc hfind]
      exact ⟨_, List.mem_append_right _ (List.mem_singleton_self _), rfl, rfl, rfl⟩
    · rw [Sentinyl.create_scan_jobs_missing st caller d ty pr eOk nd nj hne hc hfind]
      exact ⟨_, List.mem_append_right _ (List.mem_singleton_self _), rfl, rfl⟩

/-- C9 (witness): the amended theorem applied to the state holding user 7's
`example.com` record, with user 2 as caller. -/
theorem c9_domain_lookup_ignores_owner_witness :
    ∃ j ∈ (Sentinyl.create_scan ⟨[Sentinyl.domainOfUser7], [], []⟩ 2 "example.com"
        "typosquat" "medium" true 10 20).2.jobs,
      j.id = 20 ∧ j.domain_id = Sentinyl.domainOfUser7.id :=
  (c9_domain_lookup_ignores_owner ⟨[Sentinyl.domainOfUser7], [], []⟩ 2 "example.com"
      "typosquat" "medium" true 10 20 Sentinyl.domainOfUser7
      (by decide) (by decide)).1 (by decide)

/-- C8: the risk scorer maps visibility labels to sub-scores public = 100,
private = 50, internal = 25, unknown = 60; the final score is the `int()`
truncation of the 0.40/0.30/0.30 weighted combination of the three
sub-scores; that combination is monotone in each sub-score holding the other
two fixed; and consequently, for any fixed age and asset value, the final
score for `public` dominates `private`, which dominates `internal`. -/
theorem c8_risk_scorer_monotone :
    (Sentinyl._score_visibility "public" = 100 ∧
     Sentinyl._score_visibility "private" = 50 ∧
     Sentinyl._score_visibility "internal" = 25 ∧
     Sentinyl._score_visibility "unknown" = 60) ∧
    (∀ (v : String) (age : ℤ) (asset : String),
      (Sentinyl.calculate_risk v age asset).1
        = Sentinyl.intTrunc (Sentinyl.weighted_score (Sentinyl._score_visibility v)
            (Sentinyl._score_age age) (Sentinyl._score_asset_value asset))) ∧
    (∀ v₁ v₂ a s : ℚ, v₁ ≤ v₂ →
      Sentinyl.intTrunc (Sentinyl.weighted_score v₁ a s)
        ≤ Sentinyl.intTrunc (Sentinyl.weighted_score v₂ a s)) ∧
    (∀ v a₁ a₂ s : ℚ, a₁ ≤ a₂ →
      Sentinyl.intTrunc (Sentinyl.weighted_score v a₁ s)
        ≤ Sentinyl.intTrunc (Sentinyl.weighted_score v a₂ s)) ∧
    (∀ v a s₁ s₂ : ℚ, s₁ ≤ s₂ →
      Sentinyl.intTrunc (Sentinyl.weighted_score v a s₁)
        ≤ Sentinyl.intTrunc (Sentinyl.weighted_score v a s₂)) ∧
    (∀ (age : ℤ) (asset : String),
      (Sentinyl.calculate_risk "internal" age asset).1
          ≤ (Sentinyl.calculate_risk "private" age asset).1 ∧
      (Sentinyl.calculate_risk "private" age asset).1
          ≤ (Sentinyl.calculate_risk "public" age asset).1) := by
  have hmono : ∀ v₁ v₂ a₁ a₂ s₁ s₂ : ℚ, v₁ ≤ v₂ → a₁ ≤ a₂ → s₁ ≤ s₂ →
      Sentinyl.intTrunc (Sentinyl.weighted_score v₁ a₁ s₁)
        ≤ Sentinyl.intTrunc (Sentinyl.weighted_score v₂ a₂ s₂) := by
    intro v₁ v₂ a₁ a₂ s₁ s₂ hv ha hs
    apply Sentinyl.intTrunc_mono
    unfold Sentinyl.weighted_score Sentinyl.WEIGHT_VISIBILITY Sentinyl.WEIGHT_AGE
      Sentinyl.WEIGHT_ASSET_VALUE
    nlinarith
  refine ⟨⟨by decide, by decide, by decide, by decide⟩, fun v age asset => rfl,
    fun v₁ v₂ a s h => hmono v₁ v₂ a a s s h le_rfl le_rfl,
    fun v a₁ a₂ s h => hmono v v a₁ a₂ s s le_rfl h le_rfl,
    fun v a s₁ s₂ h => hmono v v a a s₁ s₂ le_rfl le_rfl h,
    fun age asset => ⟨?_, ?_⟩⟩
  · have h1 : Sentinyl._score_visibility "internal" = 25 := by decide
    have h2 : Sentinyl._score_visibility "private" = 50 := by decide
    show Sentinyl.intTrunc _ ≤ Sentinyl.intTrunc _
    rw [h1, h2]
    exact hmono 25 50 _ _ _ _ (by norm_num) le_rfl le_rfl
  · have h2 : Sentinyl._score_visibility "private" = 50 := by decide
    have h3 : Sentinyl._score_visibility "public" = 100 := by decide
    show Sentinyl.intTrunc _ ≤ Sentinyl.intTrunc _
    rw [h2, h3]
    exact hmono 50 100 _ _ _ _ (by norm_num) le_rfl le_rfl

/-- C8 (witness): monotonicity in the visibility sub-score at 50 ≤ 100, and
the visibility ordering at age 5 days on a production asset. -/
theorem c8_risk_scorer_monotone_witness :
    Sentinyl.intTrunc (Sentinyl.weighted_score 50 80 60)
        ≤ Sentinyl.intTrunc (Sentinyl.weighted_score 100 80 60) ∧
    (Sentinyl.calculate_risk "internal" 5 "production").1
        ≤ (Sentinyl.calculate_risk "private" 5 "production").1 :=
  ⟨c8_risk_scorer_monotone.2.2.1 50 100 80 60 (by norm_num),
   (c8_risk_scorer_monotone.2.2.2.2.2 5 "production").1⟩

namespace Sentinyl

theorem mkCandidate_spec {v t : List Char} (hv : v ≠ []) (hvd : '.' ∉ v)
    (htd : '.' ∉ t) :
    (mkCandidate v t).count '.' = 1 ∧
      ∃ l t2, mkCandidate v t = l ++ '.' :: t2 ∧ l ≠ [] := by
  refine ⟨?_, v, t, rfl, hv⟩
  simp [mkCandidate, List.count_append, List.count_cons,
    List.count_eq_zero.mpr hvd, List.count_eq_zero.mpr htd]

theorem getD_mem_or_default (n : List Char) (i : Nat) (d : Char) :
    n.getD i d ∈ n ∨ n.getD i d = d := by
  induction n generalizing i with
  | nil => right; cases i <;> rfl
  | cons a l ih =>
    cases i with
    | zero => left; simp [List.getD]
    | succ k =>
      rcases ih k with h | h
      · left
        simp only [List.getD] at h ⊢
        exact List.mem_cons_of_mem a (by simpa using h)
      · right
        simpa [List.getD] using h

theorem getD_ne_dot {n : List Char} (i : Nat) (h : '.' ∉ n) :
    n.getD i ' ' ≠ '.' := by
  rcases getD_mem_or_default n i ' ' with hm | hd
  · exact fun he => h (he ▸ hm)
  · rw [hd]; decide

theorem nodot_take {n : List Char} (i : Nat) (h : '.' ∉ n) : '.' ∉ n.take i :=
  fun hx => h (List.take_subset i n hx)

theorem nodot_drop {n : List Char} (i : Nat) (h : '.' ∉ n) : '.' ∉ n.drop i :=
  fun hx => h (List.drop_subset i n hx)

theorem omission_spec {n t : List Char} (hnd : '.' ∉ n) (htd : '.' ∉ t) :
    ∀ c ∈ _omission n t,
      c.count '.' = 1 ∧ ∃ l t2, c = l ++ '.' :: t2 ∧ l ≠ [] := by
  intro c hc
  simp only [ _omission, List.mem_filterMap, List.mem_range] at hc
  obtain ⟨i, hi, hsome⟩ := hc
  split_ifs at hsome with hlen
  · cases hsome
    refine mkCandidate_spec ?_ ?_ htd
    · exact List.ne_nil_of_length_pos (by omega)
    · intro hx
      rcases List.mem_append.mp hx with hx | hx
      · exact nodot_take i hnd hx
      · exact nodot_drop (i + 1) hnd hx

theorem repetition_spec {n t : List Char} (hnd : '.' ∉ n) (htd : '.' ∉ t) :
    ∀ c ∈ _repetition n t,
      c.count '.' = 1 ∧ ∃ l t2, c = l ++ '.' :: t2 ∧ l ≠ [] := by
  intro c hc
  simp only [ _repetition, List.mem_map, List.mem_range] at hc
  obtain ⟨i, hi, rfl⟩ := hc
  refine mkCandidate_spec ?_ ?_ htd
  · intro hcon
    have h2 := congrArg List.length hcon
    simp only [List.length_append, List.length_take, List.length_drop,
      List.length_nil] at h2
    omega
  · intro hx
    rcases List.mem_append.mp hx with hx | hx
    · exact nodot_take (i + 1) hnd hx
    · exact nodot_drop i hnd hx
end Sentinyl

namespace Sentinyl

theorem HOMOGLYPHS_no_dot (c : Char) : '.' ∉ HOMOGLYPHS c := by
  intro hx
  unfold HOMOGLYPHS at hx
  cases hf : HOMOGLYPHS_TABLE.find? (fun p => p.1 == c) with
  | none => rw [hf] at hx; simp at hx
  | some p =>
    rw [hf] at hx
    simp only [Option.map, Option.getD] at hx
    exact (by decide : ∀ q ∈ HOMOGLYPHS_TABLE, '.' ∉ q.2) p
      (List.mem_of_find?_eq_some hf) hx

theorem KEYBOARD_no_dot (c : Char) : '.' ∉ KEYBOARD c := by
  intro hx
  unfold KEYBOARD at hx
  cases hf : KEYBOARD_TABLE.find? (fun p => p.1 == c) with
  | none => rw [hf] at hx; simp at hx
  | some p =>
    rw [hf] at hx
    simp only [Option.map, Option.getD] at hx
    exact (by decide : ∀ q ∈ KEYBOARD_TABLE, '.' ∉ q.2) p
      (List.mem_of_find?_eq_some hf) hx

theorem COMMON_TLDS_no_dot : ∀ t2 ∈ COMMON_TLDS, '.' ∉ t2 := by decide

theorem transposition_spec {n t : List Char} (hnd : '.' ∉ n) (htd : '.' ∉ t) :
    ∀ c ∈ _transposition n t,
      c.count '.' = 1 ∧ ∃ l t2, c = l ++ '.' :: t2 ∧ l ≠ [] := by
  intro c hc
  simp only [ _transposition, List.mem_map, List.mem_range] at hc
  obtain ⟨i, hi, rfl⟩ := hc
  refine mkCandidate_spec ?_ ?_ htd
  · intro hcon
    simp [List.append_eq_nil] at hcon
  · intro hx
    rcases List.mem_append.mp hx with hx | hx
    · exact nodot_take i hnd hx
    · rcases List.mem_cons.mp hx with heq | hx
      · exact getD_ne_dot (i + 1) hnd heq.symm
      · rcases List.mem_cons.mp hx with heq | hx
        · exact getD_ne_dot i hnd heq.symm
        · exact nodot_drop (i + 2) hnd hx

theorem homoglyph_spec {n t : List Char} (hnd : '.' ∉ n) (htd : '.' ∉ t) :
    ∀ c ∈ _homoglyph n t,
      c.count '.' = 1 ∧ ∃ l t2, c = l ++ '.' :: t2 ∧ l ≠ [] := by
  intro c hc
  simp only [ _homoglyph, List.mem_flatMap, List.mem_map, List.mem_range] at hc
  obtain ⟨i, hi, sub, hsub, rfl⟩ := hc
  refine mkCandidate_spec ?_ ?_ htd
  · intro hcon
    simp [List.append_eq_nil] at hcon
  · intro hx
    rcases List.mem_append.mp hx with hx | hx
    · exact nodot_take i hnd hx
    · rcases List.mem_cons.mp hx with heq | hx
      · exact HOMOGLYPHS_no_dot (n.getD i ' ') (heq ▸ hsub)
      · exact nodot_drop (i + 1) hnd hx

theorem keyboard_typos_spec {n t : List Char} (hnd : '.' ∉ n) (htd : '.' ∉ t) :
    ∀ c ∈ _keyboard_typos n t,
      c.count '.' = 1 ∧ ∃ l t2, c = l ++ '.' :: t2 ∧ l ≠ [] := by
  intro c hc
  simp only [ _keyboard_typos, List.mem_flatMap, List.mem_map, List.mem_range] at hc
  obtain ⟨i, hi, adj, hadj, rfl⟩ := hc
  refine mkCandidate_spec ?_ ?_ htd
  · intro hcon
    simp [List.append_eq_nil] at hcon
  · intro hx
    rcases List.mem_append.mp hx with hx | hx
    · exact nodot_take i hnd hx
    · rcases List.mem_cons.mp hx with heq | hx
      · exact KEYBOARD_no_dot (n.getD i ' ') (List.take_subset 2 _ (heq ▸ hadj))
      · exact nodot_drop (i + 1) hnd hx

theorem tld_swap_spec {n t : List Char} (hn : n ≠ []) (hnd : '.' ∉ n) :
    ∀ c ∈ _tld_swap n t,
      c.count '.' = 1 ∧ ∃ l t2, c = l ++ '.' :: t2 ∧ l ≠ [] := by
  intro c hc
  simp only [ _tld_swap, List.mem_filterMap] at hc
  obtain ⟨tld2, htl2, hsome⟩ := hc
  split_ifs at hsome
  cases hsome
  exact mkCandidate_spec hn hnd (COMMON_TLDS_no_dot tld2 htl2)

theorem hyphenation_spec {n t : List Char} (hnd : '.' ∉ n) (htd : '.' ∉ t) :
    ∀ c ∈ _hyphenation n t,
      c.count '.' = 1 ∧ ∃ l t2, c = l ++ '.' :: t2 ∧ l ≠ [] := by
  intro c hc
  unfold _hyphenation at hc
  split_ifs at hc with hlen
  · simp only [List.mem_map] at hc
    obtain ⟨i, hi, rfl⟩ := hc
    refine mkCandidate_spec ?_ ?_ htd
    · intro hcon
      simp [List.append_eq_nil] at hcon
    · intro hx
      rcases List.mem_append.mp hx with hx | hx
      · exact nodot_take i hnd hx
      · rcases List.mem_cons.mp hx with heq | hx
        · exact absurd heq (by decide)
        · exact nodot_drop i hnd hx
  · simp at hc

theorem subdomain_spec {n t : List Char} (hnd : '.' ∉ n) (htd : '.' ∉ t) :
    ∀ c ∈ _subdomain_prefix n t,
      c.count '.' = 1 ∧ ∃ l t2, c = l ++ '.' :: t2 ∧ l ≠ [] := by
  intro c hc
  simp only [ _subdomain_prefix, List.mem_flatMap] at hc
  obtain ⟨p, hp, hc2⟩ := hc
  have hpfacts : p ≠ [] ∧ '.' ∉ p :=
    (by decide : ∀ q ∈ ["www".data, "secure".data, "login".data, "account".data,
      "verify".data, "update".data], q ≠ [] ∧ '.' ∉ q) p hp
  have hmem : c = mkCandidate (p ++ '-' :: n) t ∨ c = mkCandidate (p ++ n) t := by
    simpa using hc2
  rcases hmem with rfl | rfl
  · refine mkCandidate_spec ?_ ?_ htd
    · intro hcon
      simp [List.append_eq_nil] at hcon
    · intro hx
      rcases List.mem_append.mp hx with hx | hx
      · exact hpfacts.2 hx
      · rcases List.mem_cons.mp hx with heq | hx
        · exact absurd heq (by decide)
        · exact hnd hx
  · refine mkCandidate_spec ?_ ?_ htd
    · intro hcon
      rw [List.append_eq_nil] at hcon
      exact hpfacts.1 hcon.1
    · intro hx
      rcases List.mem_append.mp hx with hx | hx
      · exact hpfacts.2 hx
      · exact hnd hx

theorem init_tld_no_dot (d : List Char) : '.' ∉ (DomainFuzzer.init d).tld := by
  by_cases h : '.' ∈ stripChars (lowerChars d)
  · simp only [DomainFuzzer.init, if_pos h]
    intro hx
    simp only [List.mem_reverse] at hx
    have := List.mem_takeWhile_imp hx
    simp at this
  · simp only [DomainFuzzer.init, if_neg h]
    decide

end Sentinyl

/-- C6 (amended): for every input whose pre-tld label (the part before the
last dot of the lowercased, stripped input) is non-empty and contains no dot,
`DomainFuzzer.generate_variations` never contains the normalized input
itself, and every candidate has exactly one dot with a non-empty label before
it.  (In this functional model the returned set is a deterministic function
of the input, so stability across runs holds by construction.)  The original
claim quantified over all inputs; inputs with a dot inside the label refute
it — see the counterexample. -/
theorem c6_amended (d : List Char)
    (hnd : '.' ∉ (Sentinyl.DomainFuzzer.init d).name)
    (hn : (Sentinyl.DomainFuzzer.init d).name ≠ []) :
    ∀ c ∈ (Sentinyl.DomainFuzzer.init d).generate_variations,
      c ≠ (Sentinyl.DomainFuzzer.init d).domain ∧
      c.count '.' = 1 ∧ ∃ l t2, c = l ++ '.' :: t2 ∧ l ≠ [] := by
  intro c hc
  have htd := Sentinyl.init_tld_no_dot d
  unfold Sentinyl.DomainFuzzer.generate_variations at hc
  rw [List.mem_filter] at hc
  obtain ⟨hd, hne⟩ := hc
  refine ⟨by simpa using hne, ?_⟩
  rw [List.mem_dedup] at hd
  simp only [List.mem_append] at hd
  rcases hd with ((((((hd | hd) | hd) | hd) | hd) | hd) | hd) | hd
  · exact Sentinyl.omission_spec hnd htd c hd
  · exact Sentinyl.repetition_spec hnd htd c hd
  · exact Sentinyl.transposition_spec hnd htd c hd
  · exact Sentinyl.homoglyph_spec hnd htd c hd
  · exact Sentinyl.keyboard_typos_spec hnd htd c hd
  · exact Sentinyl.tld_swap_spec hn hnd c hd
  · exact Sentinyl.hyphenation_spec hnd htd c hd
  · exact Sentinyl.subdomain_spec hnd htd c hd

/-- C6 (counterexample): the claim asserts that for every input domain every
candidate has exactly one dot.  For the input `a.b.cd` the label part is
`a.b` (the split is on the last dot), and the repetition family emits
`aa.b.cd`, which has two dots. -/
theorem c6_counterexample :
    "aa.b.cd".data ∈
      (Sentinyl.DomainFuzzer.init "a.b.cd".data).generate_variations ∧
    "aa.b.cd".data.count '.' = 2 := by
  refine ⟨?_, ?_⟩ <;> decide

/-- C6 (witness): the amended theorem applied to input `ab.com` and its
generated candidate `aab.com`. -/
theorem c6_witness :
    "aab.com".data ≠ (Sentinyl.DomainFuzzer.init "ab.com".data).domain ∧
    "aab.com".data.count '.' = 1 ∧
    ∃ l t2, "aab.com".data = l ++ '.' :: t2 ∧ l ≠ [] :=
  c6_amended "ab.com".data (by decide) (by decide) "aab.com".data (by decide)

namespace Sentinyl

/-- `str.split` never returns an empty list of parts. -/
theorem pySplit_ne_nil (sep : Char) (l : List Char) : pySplit sep l ≠ [] := by
  cases l with
  | nil => simp [pySplit]
  | cons c rest =>
    by_cases h : c = sep
    · simp [pySplit, h]
    · simp only [pySplit, if_neg h]
      cases pySplit sep rest <;> simp

/-- A separator-free string splits into itself alone. -/
theorem pySplit_no_sep {sep : Char} {l : List Char} (h : sep ∉ l) :
    pySplit sep l = [l] := by
  induction l with
  | nil => rfl
  | cons c rest ih =>
    have hc : ¬ c = sep := fun he => h (he ▸ List.mem_cons_self c rest)
    have hrest : sep ∉ rest := fun hx => h (List.mem_cons_of_mem c hx)
    simp only [pySplit, if_neg hc, ih hrest]

/-- Splitting distributes over a separator-free first segment. -/
theorem pySplit_append {sep : Char} {a : List Char} (r : List Char)
    (h : sep ∉ a) :
    pySplit sep (a ++ sep :: r) = a :: pySplit sep r := by
  induction a with
  | nil => simp [pySplit]
  | cons c a2 ih =>
    have hc : ¬ c = sep := fun he => h (he ▸ List.mem_cons_self c a2)
    have ha2 : sep ∉ a2 := fun hx => h (List.mem_cons_of_mem c hx)
    simp only [List.cons_append, pySplit, if_neg hc, List.append_eq, ih ha2]

/-- No part returned by the split contains the separator. -/
theorem pySplit_parts_no_sep (sep : Char) (l : List Char) :
    ∀ p ∈ pySplit sep l, sep ∉ p := by
  induction l with
  | nil =>
    intro p hp
    simp [pySplit] at hp
    simp [hp]
  | cons c rest ih =>
    intro p hp
    by_cases hc : c = sep
    · simp only [pySplit, if_pos hc] at hp
      rcases List.mem_cons.mp hp with rfl | hp
      · simp
      · exact ih p hp
    · simp only [pySplit, if_neg hc] at hp
      cases hps : pySplit sep rest with
      | nil => exact absurd hps (pySplit_ne_nil sep rest)
      | cons h2 t2 =>
        rw [hps] at hp
        rcases List.mem_cons.mp hp with rfl | hp
        · intro hx
          rcases List.mem_cons.mp hx with he | hx
          · exact hc he.symm
          · exact ih h2 (hps ▸ List.mem_cons_self h2 t2) hx
        · exact ih p (hps ▸ List.mem_cons_of_mem h2 hp)

/-- Unfolding step for `joinSep` on a non-final part. -/
theorem joinSep_cons_cons (sep : Char) (x : Char) (h : List Char)
    (t : List (List Char)) :
    joinSep sep ((x :: h) :: t) = x :: joinSep sep (h :: t) := by
  cases t <;> rfl

/-- Joining the parts with the separator reconstructs the input. -/
theorem pySplit_reconstruct (sep : Char) (l : List Char) :
    joinSep sep (pySplit sep l) = l := by
  induction l with
  | nil => rfl
  | cons x rest ih =>
    by_cases hx : x = sep
    · simp only [pySplit, if_pos hx]
      cases hps : pySplit sep rest with
      | nil => exact absurd hps (pySplit_ne_nil sep rest)
      | cons h2 t2 =>
        rw [hps] at ih
        show sep :: joinSep sep (h2 :: t2) = x :: rest
        rw [ih, hx]
    · simp only [pySplit, if_neg hx]
      cases hps : pySplit sep rest with
      | nil => exact absurd hps (pySplit_ne_nil sep rest)
      | cons h2 t2 =>
        rw [hps] at ih
        show joinSep sep ((x :: h2) :: t2) = x :: rest
        rw [joinSep_cons_cons, ih]

/-- A three-way split means the input was exactly two separators apart. -/
theorem pySplit_three {sep : Char} {l a b c : List Char}
    (h : pySplit sep l = [a, b, c]) :
    l = a ++ sep :: (b ++ sep :: c) := by
  have hrec := pySplit_reconstruct sep l
  rw [h] at hrec
  rw [← hrec]
  simp [joinSep]

end Sentinyl

namespace Sentinyl

/-- Every run of `validate_knock` either rejects, leaving the state untouched
and returning no client IP, or accepts with the source IP and records the
knock time for the source. -/
theorem validate_knock_cases (plain? : Option (List Char)) (source : List Char)
    (now : ℚ) (st : KnockState) :
    validate_knock plain? source now st = (false, none, st) ∨
      validate_knock plain? source now st
        = (true, some source, setKnock st source now) := by
  unfold validate_knock
  cases plain? with
  | none => left; rfl
  | some p =>
    dsimp only
    rcases hsp : pySplit ':' p with _ | ⟨a, _ | ⟨b, _ | ⟨c, _ | ⟨d, rest⟩⟩⟩⟩
    · left; rfl
    · left; rfl
    · left; rfl
    · dsimp only
      cases hint : pyInt? a with
      | none => left; rfl
      | some ts =>
        dsimp only
        by_cases h1 : |intTrunc now - ts| > TIMESTAMP_TOLERANCE
        · left; simp [h1]
        · by_cases h2 : ¬ source = c
          · left; simp [h1, h2]
          · by_cases h3 : now - lookupKnock st source < RATE_LIMIT_WINDOW
            · left; simp [h1, h2, h3]
            · right
              have hc : c = source := by
                by_contra hcc
                exact h2 (fun he => hcc he.symm)
              simp [h1, h2, h3, hc]
    · left; rfl

end Sentinyl

namespace Sentinyl

/-- Characterization of acceptance: the plaintext decrypts to
`<ts>:<nonce>:<ip>` with colon-free fields, the timestamp parses,
`|int(now) - ts|` is within the tolerance, the claimed IP equals the packet
source, and at least `RATE_LIMIT_WINDOW` seconds have passed since this
source's last accepted knock. -/
theorem validate_knock_accept_iff (plain? : Option (List Char))
    (source : List Char) (now : ℚ) (st : KnockState) :
    (validate_knock plain? source now st).1 = true ↔
      ∃ tsStr nonce ts,
        plain? = some (tsStr ++ ':' :: (nonce ++ ':' :: source)) ∧
        ':' ∉ tsStr ∧ ':' ∉ nonce ∧ ':' ∉ source ∧
        pyInt? tsStr = some ts ∧
        |intTrunc now - ts| ≤ TIMESTAMP_TOLERANCE ∧
        RATE_LIMIT_WINDOW ≤ now - lookupKnock st source := by
  constructor
  · intro hacc
    unfold validate_knock at hacc
    cases plain? with
    | none => simp at hacc
    | some p =>
      dsimp only at hacc
      rcases hsp : pySplit ':' p with _ | ⟨a, _ | ⟨b, _ | ⟨c, _ | ⟨d, rest⟩⟩⟩⟩ <;>
        rw [hsp] at hacc
      · simp at hacc
      · simp at hacc
      · simp at hacc
      · dsimp only at hacc
        cases hint : pyInt? a with
        | none => rw [hint] at hacc; simp at hacc
        | some ts =>
          rw [hint] at hacc
          dsimp only at hacc
          split_ifs at hacc with h1 h2 h3
          all_goals try simp at hacc
          subst h2
          refine ⟨a, b, ts, ?_, ?_, ?_, ?_, hint, not_lt.mp h1, not_lt.mp h3⟩
          · exact congrArg some (pySplit_three hsp)
          · exact pySplit_parts_no_sep ':' p a (hsp ▸ by simp)
          · exact pySplit_parts_no_sep ':' p b (hsp ▸ by simp)
          · exact pySplit_parts_no_sep ':' p source (hsp ▸ by simp)
      · simp at hacc
  · rintro ⟨a, b, ts, rfl, ha, hb, hsrc, hint, hwin, hrate⟩
    unfold validate_knock
    dsimp only
    rw [pySplit_append (b ++ ':' :: source) ha, pySplit_append source hb,
      pySplit_no_sep hsrc]
    dsimp only
    rw [hint]
    dsimp only
    rw [if_neg (not_lt.mpr hwin), if_neg (fun hh => hh rfl),
      if_neg (not_lt.mpr hrate)]

end Sentinyl

namespace Sentinyl

/-- On acceptance the result is exactly
`(true, source, state with the source's knock time set to now)`. -/
theorem validate_knock_of_accept (plain? : Option (List Char))
    (source : List Char) (now : ℚ) (st : KnockState)
    (h : (validate_knock plain? source now st).1 = true) :
    validate_knock plain? source now st
      = (true, some source, setKnock st source now) := by
  rcases validate_knock_cases plain? source now st with hc | hc
  · rw [hc] at h
    simp at h
  · exact hc

/-- Reading a source's knock time right after recording it returns it. -/
theorem lookupKnock_setKnock (st : KnockState) (ip : List Char) (t : ℚ) :
    lookupKnock (setKnock st ip t) ip = t := by
  simp [lookupKnock, setKnock, List.find?]

end Sentinyl

/-- C7: the knock server triggers the firewall-whitelist insertion of the
claimed IP with a 60-second expiry exactly when the payload decrypts to a
well-formed `<ts>:<nonce>:<ip>` plaintext with `|now - ts| ≤ 10`, the claimed
IP equal to the packet's source IP, and no accepted knock from that source
in the previous 5 seconds; every rejected packet produces no firewall
command and leaves the per-source state unchanged (and the server never
sends any response by construction — `handle_packet` has no reply channel). -/
theorem c7_knock_gate (plain? : Option (List Char)) (source : List Char)
    (now : ℚ) (st : Sentinyl.KnockState) :
    ((Sentinyl.handle_packet plain? source now st).1
        = some { ipset_name := "ghost_whitelist".data, ip := source, timeout := 60 }
      ↔ (∃ tsStr nonce ts,
          plain? = some (tsStr ++ ':' :: (nonce ++ ':' :: source)) ∧
          ':' ∉ tsStr ∧ ':' ∉ nonce ∧ ':' ∉ source ∧
          Sentinyl.pyInt? tsStr = some ts ∧
          |Sentinyl.intTrunc now - ts| ≤ 10 ∧
          5 ≤ now - Sentinyl.lookupKnock st source)) ∧
    ((Sentinyl.handle_packet plain? source now st).1 = none →
      (Sentinyl.handle_packet plain? source now st).2 = st) ∧
    ((Sentinyl.handle_packet plain? source now st).1 ≠ none →
      (Sentinyl.handle_packet plain? source now st).2
        = Sentinyl.setKnock st source now) := by
  rcases Sentinyl.validate_knock_cases plain? source now st with hc | hc
  · have hh : Sentinyl.handle_packet plain? source now st = (none, st) := by
      unfold Sentinyl.handle_packet
      rw [hc]
    rw [hh]
    refine ⟨⟨fun h => by simp at h, fun hr => ?_⟩, fun _ => rfl, fun h => absurd rfl h⟩
    exfalso
    have := (Sentinyl.validate_knock_accept_iff plain? source now st).mpr hr
    rw [hc] at this
    simp at this
  · have hh : Sentinyl.handle_packet plain? source now st
        = (some (Sentinyl.open_firewall source), Sentinyl.setKnock st source now) := by
      unfold Sentinyl.handle_packet
      rw [hc]
    have hacc : (Sentinyl.validate_knock plain? source now st).1 = true := by
      rw [hc]
    rw [hh]
    exact ⟨⟨fun _ => (Sentinyl.validate_knock_accept_iff plain? source now st).mp hacc,
      fun _ => rfl⟩, fun h => by simp at h, fun _ => rfl⟩

/-- C7 (witness): a concrete accepted knock — payload `12:ab:1.2.3.4` from
source 1.2.3.4 at t = 13 with a fresh state — produces the whitelist command
with a 60-second timeout. -/
theorem c7_knock_gate_witness :
    (Sentinyl.handle_packet (some "12:ab:1.2.3.4".data) "1.2.3.4".data 13 ⟨[]⟩).1
      = some { ipset_name := "ghost_whitelist".data, ip := "1.2.3.4".data
               timeout := 60 } :=
  (c7_knock_gate (some "12:ab:1.2.3.4".data) "1.2.3.4".data 13 ⟨[]⟩).1.mpr
    ⟨"12".data, "ab".data, 12, by decide, by decide, by decide, by decide,
     by decide, by decide, by norm_num [Sentinyl.lookupKnock, List.find?]⟩

/-- C10: the validation verdict is independent of the nonce component — two
plaintexts differing only in the nonce field produce identical results
(verdict, client IP and state) — and since the nonce is never stored or
compared, an exact replay of a previously accepted packet is accepted again
whenever its timestamp is still within the 10-second window and at least 5
seconds have passed since that source's last accepted knock. -/
theorem c10_nonce_independence (tsStr n1 n2 ip source : List Char) (now : ℚ)
    (st : Sentinyl.KnockState)
    (hts : ':' ∉ tsStr) (h1 : ':' ∉ n1) (h2 : ':' ∉ n2) (hip : ':' ∉ ip) :
    (Sentinyl.validate_knock (some (tsStr ++ ':' :: (n1 ++ ':' :: ip))) source now st
      = Sentinyl.validate_knock (some (tsStr ++ ':' :: (n2 ++ ':' :: ip))) source now st) ∧
    (∀ (ts : ℤ) (now2 : ℚ),
      ':' ∉ source →
      (Sentinyl.validate_knock (some (tsStr ++ ':' :: (n1 ++ ':' :: source))) source now st).1
        = true →
      Sentinyl.pyInt? tsStr = some ts →
      |Sentinyl.intTrunc now2 - ts| ≤ 10 →
      5 ≤ now2 - now →
      (Sentinyl.validate_knock (some (tsStr ++ ':' :: (n1 ++ ':' :: source))) source now2
        ((Sentinyl.validate_knock (some (tsStr ++ ':' :: (n1 ++ ':' :: source)))
          source now st).2.2)).1 = true) := by
  constructor
  · unfold Sentinyl.validate_knock
    dsimp only
    rw [Sentinyl.pySplit_append (n1 ++ ':' :: ip) hts,
      Sentinyl.pySplit_append ip h1, Sentinyl.pySplit_no_sep hip,
      Sentinyl.pySplit_append (n2 ++ ':' :: ip) hts,
      Sentinyl.pySplit_append ip h2, Sentinyl.pySplit_no_sep hip]
  · intro ts now2 hsrc hacc hint hwin hrate
    have hres := Sentinyl.validate_knock_of_accept _ _ _ _ hacc
    rw [hres]
    apply (Sentinyl.validate_knock_accept_iff _ source now2 _).mpr
    refine ⟨tsStr, n1, ts, rfl, hts, h1, hsrc, hint, hwin, ?_⟩
    rw [Sentinyl.lookupKnock_setKnock]
    exact hrate

/-- C10 (witness): nonces `ab` and `cd` give identical results, and the exact
packet accepted at t = 13 is accepted again at t = 18 in the updated state. -/
theorem c10_nonce_independence_witness :
    (Sentinyl.validate_knock (some ("12".data ++ ':' :: ("ab".data ++ ':' :: "1.2.3.4".data)))
        "1.2.3.4".data 13 ⟨[]⟩
      = Sentinyl.validate_knock (some ("12".data ++ ':' :: ("cd".data ++ ':' :: "1.2.3.4".data)))
        "1.2.3.4".data 13 ⟨[]⟩) ∧
    (Sentinyl.validate_knock (some ("12".data ++ ':' :: ("ab".data ++ ':' :: "1.2.3.4".data)))
        "1.2.3.4".data 18
        ((Sentinyl.validate_knock (some ("12".data ++ ':' :: ("ab".data ++ ':' :: "1.2.3.4".data)))
          "1.2.3.4".data 13 ⟨[]⟩).2.2)).1 = true :=
  ⟨(c10_nonce_independence "12".data "ab".data "cd".data "1.2.3.4".data "1.2.3.4".data
      13 ⟨[]⟩ (by decide) (by decide) (by decide) (by decide)).1,
   (c10_nonce_independence "12".data "ab".data "cd".data "1.2.3.4".data "1.2.3.4".data
      13 ⟨[]⟩ (by decide) (by decide) (by decide) (by decide)).2 12 18
      (by decide)
      ((Sentinyl.validate_knock_accept_iff _ _ _ _).mpr
        ⟨"12".data, "ab".data, 12, rfl, by decide, by decide, by decide, by decide,
         by decide,
         by norm_num [Sentinyl.lookupKnock, List.find?, Sentinyl.RATE_LIMIT_WINDOW]⟩)
      (by decide) (by decide) (by norm_num)⟩
